import Mathlib

/-!
Verification model of `gui_advance_audiobook.py`, a concurrent PDF
audiobook reader.  The file embeds, as executable Lean definitions:

* `_get_extracted_content_concurrently` — the concurrent page-extraction
  routine (slot array indexed by page, first-error capture, all-or-nothing
  error encoding `[(0, "EXTRACTION_ERROR: ...")]`);
* `_post_extraction_update` — classification of the extraction result;
* `setRate` — the speed-slider path (ttk.Scale range clamp followed by
  `_set_speed_from_slider`);
* `start_reading` / `pause_resume_reading` / `stop_reading` — the control
  state transformers;
* a small-step trace semantics of `_reading_process`, the background
  narration loop, driven by an explicit schedule of poll ticks and user
  actions against a speech-engine double that emits word-onset events
  while an utterance is in flight.
-/

set_option maxHeartbeats 1000000

/-- Outcome of one per-page extraction task: the extracted text, or the
exception it raised (rendered as Python does, `ClassName: message`). -/
abbrev PageOutcome := Except String String

/-- Models Python `str.startswith`: a prefix test on the character
sequence of the string. -/
def startswith (s pre : String) : Bool := pre.data.isPrefixOf s.data

/-- One iteration of the `as_completed` collection loop in
`_get_extracted_content_concurrently` (lines 274-280): an exception is
recorded only if it is the first one observed; a successful result
`(page_index, text)` is written into its slot as `(page_index + 1, text)`. -/
def collectStep (outcomes : List PageOutcome)
    (st : List (Option (Nat × String)) × Option String) (i : Nat) :
    List (Option (Nat × String)) × Option String :=
  match outcomes[i]? with
  | some (Except.error e) => (st.1, some (st.2.getD e))
  | some (Except.ok t) => (st.1.set i (some (i + 1, t)), st.2)
  | none => st

/-- The extraction routine (lines 250-288).  `pathExists` models
`os.path.exists`; `readerResult` models opening `pypdf.PdfReader` and
gives the per-page task outcomes; `order` is the order in which the
futures complete (`as_completed`).  The slot array is pre-sized with
`None`; on any recorded error the whole call collapses to the single
error encoding, else the non-`None` slots are returned. -/
def _get_extracted_content_concurrently (path : String) (pathExists : Bool)
    (readerResult : Except String (List PageOutcome)) (order : List Nat) :
    List (Nat × String) :=
  if !pathExists then
    [(0, "EXTRACTION_ERROR: FileNotFoundError: File not found: " ++ path)]
  else
    match readerResult with
    | Except.error e => [(0, "EXTRACTION_ERROR: " ++ e)]
    | Except.ok outcomes =>
      let init : List (Option (Nat × String)) :=
        List.replicate outcomes.length none
      let res := order.foldl (collectStep outcomes) (init, none)
      match res.2 with
      | some e => [(0, "EXTRACTION_ERROR: " ++ e)]
      | none => res.1.filterMap id

/-- The error of the task at index `i`, if that task raised. -/
def errOf (outcomes : List PageOutcome) (i : Nat) : Option String :=
  match outcomes[i]? with
  | some (Except.error e) => some e
  | _ => none

/-- The first failure observed in completion order. -/
def firstErrIn (outcomes : List PageOutcome) (order : List Nat) :
    Option String :=
  (order.filterMap (errOf outcomes)).head?

/-- The error test of `_post_extraction_update` (line 154):
`content and content[0][0] == 0 and content[0][1].startswith("EXTRACTION_ERROR")`. -/
def isErrorContent : List (Nat × String) → Bool
  | [] => false
  | (pn, txt) :: _ => pn == 0 && startswith txt "EXTRACTION_ERROR"

/-- The GUI state produced by `_post_extraction_update`. -/
structure PostState where
  status : String
  start_enabled : Bool
  current_content : List (Nat × String)
deriving DecidableEq

/-- `_post_extraction_update` (lines 152-167): an error result disables
start and clears the content; a non-empty success stores the pages and
enables start; an empty result is reported as failed-or-empty with start
disabled. -/
def _post_extraction_update (content : List (Nat × String)) : PostState :=
  if isErrorContent content then
    { status := "❌ Extraction Failed: " ++
        ((content.headD (0, "")).2.replace "EXTRACTION_ERROR: " "")
      start_enabled := false
      current_content := [] }
  else if !content.isEmpty then
    { status := "Extraction complete. " ++ toString content.length ++
        " pages loaded. Ready to read."
      start_enabled := true
      current_content := content }
  else
    { status := "Extraction failed or PDF is empty."
      start_enabled := false
      current_content := [] }

/-- The speed slider is `ttk.Scale(from_=100, to=300)` (line 108); per Tk
semantics a value set on the scale is clamped to its range before the
`command` callback fires. -/
def scale_clamp (v : Int) : Int := max 100 (min 300 v)

/-- `_set_speed_from_slider` (lines 169-182): `speed = int(float(value))`
applied to the slider's (integral) value, passed to
`tts_engine.setProperty('rate', speed)`. -/
def _set_speed_from_slider (value : Int) : Int := value

/-- Setting the reading rate through the application's only rate-setting
path: the slider clamp followed by the slider callback. -/
def setRate (wpm : Int) : Int := _set_speed_from_slider (scale_clamp wpm)

/-- The control-relevant application state of `AudioBookApp`. -/
structure AppState where
  pdf_file_path : String
  is_reading : Bool
  is_paused : Bool
  stop_flag : Bool
  engine_busy : Bool
  start_enabled : Bool
  pause_enabled : Bool
  pause_text : String
  stop_enabled : Bool
  status : String
deriving DecidableEq

/-- `_cleanup_buttons` (lines 349-353): start enabled iff a PDF path is
set, pause disabled and relabelled, stop disabled. -/
def _cleanup_buttons (s : AppState) : AppState :=
  { s with start_enabled := !s.pdf_file_path.isEmpty
           pause_enabled := false
           pause_text := "⏸️ Pause"
           stop_enabled := false }

/-- `stop_reading` (lines 238-246): sets the stop flag, stops the engine
(flushing its queue), clears the reading flag, resets the buttons and
reports "Reading stopped.". -/
def stop_reading (s : AppState) : AppState :=
  let s1 := { s with stop_flag := true, engine_busy := false,
                     is_reading := false }
  { _cleanup_buttons s1 with status := "Reading stopped." }

/-- `start_reading` (lines 211-222): a no-op when already reading,
otherwise flips to reading, clears the stop flag, configures the buttons
and spawns the narration thread.  The second component records whether a
narration thread was spawned. -/
def start_reading (s : AppState) : AppState × Bool :=
  if s.is_reading then (s, false)
  else
    ({ s with is_reading := true
              stop_flag := false
              start_enabled := false
              pause_enabled := true
              pause_text := "⏸️ Pause"
              stop_enabled := true
              status := "Reading started..." }, true)

/-- `pause_resume_reading` (lines 224-236): a no-op unless reading;
otherwise toggles the pause flag and relabels the pause button. -/
def pause_resume_reading (s : AppState) : AppState :=
  if !s.is_reading then s
  else if s.is_paused then
    { s with is_paused := false
             pause_text := "⏸️ Pause"
             status := "Reading resumed." }
  else
    { s with is_paused := true
             pause_text := "▶️ Resume"
             status := "Reading paused." }

/-- Whether every character of the page text is whitespace — Python's
`not raw_text.strip()` (line 301). -/
def isBlankChars : List Char → Bool
  | [] => true
  | c :: cs => c.isWhitespace && isBlankChars cs

/-- A page text is blank when stripping it leaves nothing. -/
def isBlank (t : String) : Bool := isBlankChars t.data

/-- Events observable at the progress boundary of the narration loop and
the engine callback. -/
inductive Event where
  | pageChanged (pageNum : Nat) (text : String)
  | say (text : String)
  | word (pageNum : Nat) (offset : Nat)
  | highlightClear
  | paused
  | resumed
  | stopped
deriving DecidableEq

/-- Position of the narration-loop thread inside `_reading_process`. -/
inductive LoopPos where
  | atFor
  | busyWait (pageNum : Nat)
  | done
deriving DecidableEq

/-- Joint state of the narration loop, the speech engine double and the
shared flags.  `engine = some (p, offs)` means the engine is busy with
page `p` and will emit word onsets at the offsets `offs`. -/
structure RunState where
  remaining : List (Nat × String)
  pos : LoopPos
  engine : Option (Nat × List Nat)
  is_paused : Bool
  stop_flag : Bool
  is_reading : Bool
deriving DecidableEq

/-- Actions of the schedule: one poll interval elapses, the user toggles
pause/resume, or the user presses stop. -/
inductive Act where
  | tick
  | pauseResume
  | stopCmd
deriving DecidableEq

/-- Engine progress over one poll interval: while an utterance is in
flight the engine emits its next word onset (playback is never suspended
by the pause flag — `pause_resume_reading` does not touch the engine);
an utterance with no onsets left completes and the engine goes idle. -/
def engineTick : Option (Nat × List Nat) →
    Option (Nat × List Nat) × List Event
  | none => (none, [])
  | some (_, []) => (none, [])
  | some (p, off :: offs) => (some (p, offs), [Event.word p off])

/-- Loop progress over one poll interval, after engine progress.
`atFor` is the head of the `for` loop (lines 298-308): break on stop,
skip a blank page, else display the page, hand it to the engine and move
to the busy wait.  `busyWait` is the polling loop (lines 311-326): on
stop, clear the highlight and break; while paused the inner sleep loop
holds the thread; while the engine is busy the thread keeps polling;
once idle and unpaused, clear the highlight and advance. -/
def loopTick (wordsOf : String → List Nat) (s : RunState) :
    RunState × List Event :=
  match s.pos with
  | LoopPos.done => (s, [])
  | LoopPos.atFor =>
    if s.stop_flag then
      ({ s with pos := LoopPos.done, is_reading := false }, [])
    else
      match s.remaining with
      | [] => ({ s with pos := LoopPos.done, is_reading := false }, [])
      | (p, t) :: rest =>
        if isBlank t then
          ({ s with remaining := rest }, [])
        else
          ({ s with remaining := rest
                    engine := some (p, wordsOf t)
                    pos := LoopPos.busyWait p },
           [Event.pageChanged p t, Event.say t])
  | LoopPos.busyWait _ =>
    if s.stop_flag then
      ({ s with pos := LoopPos.done, is_reading := false },
       [Event.highlightClear])
    else if s.is_paused then
      (s, [])
    else if s.engine.isSome then
      (s, [])
    else
      ({ s with pos := LoopPos.atFor }, [Event.highlightClear])

/-- One scheduled step of the joint system. -/
def step (wordsOf : String → List Nat) (s : RunState) :
    Act → RunState × List Event
  | Act.tick =>
    let er := engineTick s.engine
    let lr := loopTick wordsOf { s with engine := er.1 }
    (lr.1, er.2 ++ lr.2)
  | Act.pauseResume =>
    if !s.is_reading then (s, [])
    else if s.is_paused then
      ({ s with is_paused := false }, [Event.resumed])
    else
      ({ s with is_paused := true }, [Event.paused])
  | Act.stopCmd =>
    ({ s with stop_flag := true, engine := none, is_reading := false },
     [Event.stopped])

/-- Trace of events produced by running a schedule from a state. -/
def runFrom (wordsOf : String → List Nat) :
    RunState → List Act → List Event
  | _, [] => []
  | s, a :: rest =>
    let r := step wordsOf s a
    r.2 ++ runFrom wordsOf r.1 rest

/-- The state right after `start_reading` spawned `_reading_process` on
the given page list. -/
def initState (content : List (Nat × String)) : RunState :=
  { remaining := content
    pos := LoopPos.atFor
    engine := none
    is_paused := false
    stop_flag := false
    is_reading := true }

/-- Trace of a full session over the given schedule. -/
def run (wordsOf : String → List Nat) (content : List (Nat × String))
    (acts : List Act) : List Event :=
  runFrom wordsOf (initState content) acts

/-- True when an event narrates blank text (a page-changed or say event
whose text is blank). -/
def blankNarration : Event → Bool
  | Event.pageChanged _ t => isBlank t
  | Event.say t => isBlank t
  | _ => false

/-- True on page-changed and say events. -/
def isNarrationEvent : Event → Bool
  | Event.pageChanged _ _ => true
  | Event.say _ => true
  | _ => false

/-- The page numbers of the page-changed events of a trace, in order. -/
def pagesChangedIn : List Event → List Nat
  | [] => []
  | Event.pageChanged p _ :: rest => p :: pagesChangedIn rest
  | _ :: rest => pagesChangedIn rest

/-- Whether, somewhere in the trace, a word-boundary event for page `p`
occurs while the session is paused (between a paused event and the next
resumed event); `inPause` is the pause status at the start of the trace. -/
def wordDuringPause (p : Nat) : List Event → Bool → Bool
  | [], _ => false
  | Event.paused :: rest, _ => wordDuringPause p rest true
  | Event.resumed :: rest, _ => wordDuringPause p rest false
  | Event.word q _ :: rest, inPause =>
    (inPause && q == p) || wordDuringPause p rest inPause
  | _ :: rest, inPause => wordDuringPause p rest inPause

/-- The suffix of a trace strictly after the first occurrence of a
marker event. -/
def afterEvent (marker : Event) : List Event → List Event
  | [] => []
  | e :: rest => if e == marker then rest else afterEvent marker rest

/-- Engine double for the pause scenario: page 2's text carries two word
onsets, every other text one. -/
def wordsOfEx (t : String) : List Nat :=
  if t == "beta gamma" then [0, 5] else [0]

/-- A three-page session. -/
def contentEx : List (Nat × String) :=
  [(1, "alpha"), (2, "beta gamma"), (3, "delta")]

/-- Schedule for the pause scenario: narrate page 1, start page 2, pause
mid-utterance of page 2, let a poll interval elapse, resume, and let the
session run to completion. -/
def actsEx : List Act :=
  [Act.tick, Act.tick, Act.tick, Act.tick, Act.tick,
   Act.pauseResume, Act.tick, Act.pauseResume, Act.tick,
   Act.tick, Act.tick, Act.tick, Act.tick]

/-- A three-page session whose second page is whitespace-only. -/
def contentBlankEx : List (Nat × String) :=
  [(1, "First page text"), (2, "   "), (3, "Third page text")]

/-- An all-ticks schedule long enough to finish `contentBlankEx`. -/
def actsBlankEx : List Act := List.replicate 12 Act.tick

/-- A mid-session application state used as a concrete instance. -/
def sExample : AppState :=
  { pdf_file_path := "book.pdf"
    is_reading := true
    is_paused := false
    stop_flag := false
    engine_busy := true
    start_enabled := false
    pause_enabled := true
    pause_text := "⏸️ Pause"
    stop_enabled := true
    status := "Reading started..." }

theorem isPrefixOf_append_self (l r : List Char) :
    l.isPrefixOf (l ++ r) = true := by
  induction l with
  | nil => simp
  | cons a as ih => simp [List.isPrefixOf, ih]

theorem startswith_append (p r : String) : startswith (p ++ r) p = true := by
  simp [startswith, String.data_append, isPrefixOf_append_self]

/-- C3: for every filesystem path that does not resolve to an existing
file, extraction returns the `FileNotFoundError` encoding classified as
not-found, and the result is independent of the document reader and of
the task-completion order, so the check happens before any parsing. -/
theorem extract_notfound_before_parsing (path : String)
    (r₁ r₂ : Except String (List PageOutcome)) (o₁ o₂ : List Nat) :
    _get_extracted_content_concurrently path false r₁ o₁ =
      [(0, "EXTRACTION_ERROR: FileNotFoundError: File not found: " ++ path)] ∧
    _get_extracted_content_concurrently path false r₁ o₁ =
      _get_extracted_content_concurrently path false r₂ o₂ ∧
    startswith
      ("EXTRACTION_ERROR: FileNotFoundError: File not found: " ++ path)
      "EXTRACTION_ERROR: FileNotFoundError" = true := by
  refine ⟨rfl, rfl, ?_⟩
  have hlit : ("EXTRACTION_ERROR: FileNotFoundError: File not found: " : String) =
      "EXTRACTION_ERROR: FileNotFoundError" ++ ": File not found: " := by decide
  rw [hlit, String.append_assoc]
  exact startswith_append _ _

/-- C4: the rate-setting path saturates every input into the slider's
configured range `[100, 300]` and never fails; `setRate 50 = 100` and
`setRate 500 = 300`. -/
theorem setRate_saturates (wpm : Int) :
    100 ≤ setRate wpm ∧ setRate wpm ≤ 300 ∧
    setRate 50 = 100 ∧ setRate 500 = 300 := by
  refine ⟨le_max_left _ _, ?_, by decide, by decide⟩
  exact max_le (by norm_num) (min_le_left _ _)

/-- C6: `stop_reading` is idempotent, and after it the session is idle —
the reading flag is false, pause and stop are disabled, the pause button
shows its idle label and start is enabled exactly when a document path
is set. -/
theorem stop_reading_idempotent (s : AppState) :
    stop_reading (stop_reading s) = stop_reading s ∧
    (stop_reading s).is_reading = false ∧
    (stop_reading s).pause_enabled = false ∧
    (stop_reading s).stop_enabled = false ∧
    (stop_reading s).pause_text = "⏸️ Pause" ∧
    (stop_reading s).start_enabled = !s.pdf_file_path.isEmpty :=
  ⟨rfl, rfl, rfl, rfl, rfl, rfl⟩

/-- C8: calling `start_reading` while the session is already reading (in
particular also while paused, since pausing keeps the reading flag set)
is a no-op that spawns no second narration loop and changes no state. -/
theorem start_rejected_when_active (s : AppState) (h : s.is_reading = true) :
    start_reading s = (s, false) ∧
    (pause_resume_reading s).is_reading = true ∧
    start_reading (pause_resume_reading s) = (pause_resume_reading s, false) := by
  by_cases hp : s.is_paused <;>
    simp [start_reading, pause_resume_reading, h, hp]

theorem start_rejected_when_active_witness :
    sExample.is_reading = true ∧ start_reading sExample = (sExample, false) :=
  ⟨rfl, (start_rejected_when_active sExample rfl).1⟩

theorem foldl_collect_snd_some (outcomes : List PageOutcome) (e : String) :
    ∀ (order : List Nat) (slots : List (Option (Nat × String))),
      (order.foldl (collectStep outcomes) (slots, some e)).2 = some e := by
  intro order
  induction order with
  | nil => intro slots; rfl
  | cons i rest ih =>
    intro slots
    simp only [List.foldl_cons]
    cases h : outcomes[i]? with
    | none => simpa [collectStep, h] using ih slots
    | some o =>
      cases o with
      | error e' => simpa [collectStep, h] using ih slots
      | ok t => simpa [collectStep, h] using ih (slots.set i (some (i + 1, t)))

theorem foldl_collect_snd (outcomes : List PageOutcome) :
    ∀ (order : List Nat) (slots : List (Option (Nat × String))),
      (order.foldl (collectStep outcomes) (slots, none)).2 =
        firstErrIn outcomes order := by
  intro order
  induction order with
  | nil => intro slots; rfl
  | cons i rest ih =>
    intro slots
    simp only [List.foldl_cons, firstErrIn, List.filterMap_cons]
    cases h : outcomes[i]? with
    | none =>
      have he : errOf outcomes i = none := by simp [errOf, h]
      rw [he]
      simpa [collectStep, h, firstErrIn] using ih slots
    | some o =>
      cases o with
      | ok t =>
        have he : errOf outcomes i = none := by simp [errOf, h]
        rw [he]
        simpa [collectStep, h, firstErrIn] using
          ih (slots.set i (some (i + 1, t)))
      | error e =>
        have he : errOf outcomes i = some e := by simp [errOf, h]
        rw [he]
        simpa [collectStep, h] using foldl_collect_snd_some outcomes e rest slots

theorem foldl_collect_fst (texts : List String) :
    ∀ (order : List Nat) (slots : List (Option (Nat × String)))
      (err : Option String), slots.length = texts.length → ∀ (j : Nat),
      ((order.foldl (collectStep (texts.map Except.ok)) (slots, err)).1)[j]? =
        if j ∈ order ∧ j < texts.length
        then some (some (j + 1, texts.getD j ""))
        else slots[j]? := by
  intro order
  induction order with
  | nil =>
    intro slots err hlen j
    simp
  | cons i rest ih =>
    intro slots err hlen j
    simp only [List.foldl_cons]
    cases ht : texts[i]? with
    | none =>
      have hi : texts.length ≤ i := List.getElem?_eq_none_iff.mp ht
      have hstep : collectStep (texts.map Except.ok) (slots, err) i =
          (slots, err) := by
        simp [collectStep, List.getElem?_map, ht]
      rw [hstep, ih slots err hlen j]
      have hcond : (j ∈ i :: rest ∧ j < texts.length) ↔
          (j ∈ rest ∧ j < texts.length) := by
        constructor
        · rintro ⟨hm, hlt⟩
          rcases List.mem_cons.mp hm with rfl | hm'
          · omega
          · exact ⟨hm', hlt⟩
        · rintro ⟨hm, hlt⟩
          exact ⟨List.mem_cons_of_mem _ hm, hlt⟩
      by_cases hj : j ∈ rest ∧ j < texts.length
      · rw [if_pos hj, if_pos (hcond.mpr hj)]
      · rw [if_neg hj, if_neg (fun hh => hj (hcond.mp hh))]
    | some t =>
      have hilt : i < texts.length := by
        rcases List.getElem?_eq_some_iff.mp ht with ⟨hl, _⟩
        exact hl
      have hstep : collectStep (texts.map Except.ok) (slots, err) i =
          (slots.set i (some (i + 1, t)), err) := by
        simp [collectStep, List.getElem?_map, ht]
      rw [hstep, ih (slots.set i (some (i + 1, t))) err
        (by simpa [List.length_set] using hlen) j]
      by_cases hj : j ∈ rest ∧ j < texts.length
      · rw [if_pos hj, if_pos ⟨List.mem_cons_of_mem _ hj.1, hj.2⟩]
      · rw [if_neg hj, List.getElem?_set]
        by_cases hij : i = j
        · subst hij
          rw [if_pos rfl, if_pos (by omega : i < slots.length)]
          rw [if_pos ⟨List.mem_cons_self i rest, hilt⟩]
          have : texts.getD i "" = t := by
            simp [List.getD_eq_getElem?_getD, ht]
          rw [this]
        · rw [if_neg hij]
          rw [if_neg (fun hh => by
            rcases List.mem_cons.mp hh.1 with rfl | hm'
            · exact hij rfl
            · exact hj ⟨hm', hh.2⟩)]

theorem firstErrIn_map_ok (texts : List String) (order : List Nat) :
    firstErrIn (texts.map Except.ok) order = none := by
  unfold firstErrIn
  have : order.filterMap (errOf (texts.map Except.ok)) = [] := by
    rw [List.filterMap_eq_nil_iff]
    intro i _
    cases ht : texts[i]? with
    | none => simp [errOf, List.getElem?_map, ht]
    | some t => simp [errOf, List.getElem?_map, ht]
  rw [this]
  rfl

theorem extract_success_eq (path : String) (texts : List String)
    (order : List Nat) (h : order.Perm (List.range texts.length)) :
    _get_extracted_content_concurrently path true
        (Except.ok (texts.map Except.ok)) order =
      (List.range texts.length).map (fun i => (i + 1, texts.getD i "")) := by
  unfold _get_extracted_content_concurrently
  simp only [Bool.not_true, Bool.false_eq_true, if_false, List.length_map]
  have hsnd := foldl_collect_snd (texts.map Except.ok) order
    (List.replicate texts.length none)
  rw [firstErrIn_map_ok] at hsnd
  rw [hsnd]
  have hfst : (order.foldl (collectStep (texts.map Except.ok))
      (List.replicate texts.length none, none)).1 =
      (List.range texts.length).map
        (fun i => some (i + 1, texts.getD i "")) := by
    apply List.ext_getElem?
    intro j
    rw [foldl_collect_fst texts order (List.replicate texts.length none) none
      (List.length_replicate _ _) j]
    have hmem : j ∈ order ↔ j < texts.length := by
      rw [h.mem_iff, List.mem_range]
    by_cases hj : j < texts.length
    · rw [if_pos ⟨hmem.mpr hj, hj⟩]
      rw [List.getElem?_map, List.getElem?_range hj]
      rfl
    · rw [if_neg (fun hh => hj hh.2)]
      rw [List.getElem?_replicate, if_neg hj]
      rw [List.getElem?_map, List.getElem?_eq_none (by simpa using hj)]
      rfl
  rw [hfst]
  show List.filterMap id ((List.range texts.length).map
      (fun i => some (i + 1, texts.getD i ""))) =
    (List.range texts.length).map (fun i => (i + 1, texts.getD i ""))
  rw [List.filterMap_map]
  exact congrFun (List.filterMap_eq_map (fun i => (i + 1, texts.getD i ""))) _

/-- C1: for a document whose N per-page tasks all succeed, extraction
returns exactly the N pages, numbered consecutively from 1 in strictly
ascending order with no gaps and no duplicates, for every completion
order of the concurrent tasks; in particular the length is at most N. -/
theorem extract_preserves_page_order (path : String) (texts : List String)
    (order : List Nat) (h : order.Perm (List.range texts.length)) :
    _get_extracted_content_concurrently path true
        (Except.ok (texts.map Except.ok)) order =
      (List.range texts.length).map (fun i => (i + 1, texts.getD i "")) ∧
    (_get_extracted_content_concurrently path true
        (Except.ok (texts.map Except.ok)) order).length ≤ texts.length ∧
    (_get_extracted_content_concurrently path true
        (Except.ok (texts.map Except.ok)) order).map Prod.fst =
      List.range' 1 texts.length := by
  have he := extract_success_eq path texts order h
  refine ⟨he, ?_, ?_⟩
  · rw [he]
    simp
  · rw [he, List.map_map, List.range'_eq_map_range]
    congr 1
    funext i
    simp [Nat.add_comm]

theorem extract_preserves_page_order_witness :
    (([1, 0] : List Nat).Perm (List.range (["a", "b"] : List String).length)) ∧
    _get_extracted_content_concurrently "book.pdf" true
        (Except.ok ((["a", "b"] : List String).map Except.ok)) [1, 0] =
      (List.range (["a", "b"] : List String).length).map
        (fun i => (i + 1, (["a", "b"] : List String).getD i "")) :=
  ⟨by decide,
   (extract_preserves_page_order "book.pdf" ["a", "b"] [1, 0] (by decide)).1⟩

/-- C2: if any per-page task fails, extraction returns the single error
encoding built from the first failure observed in completion order —
never a mix of pages and an error; the collection loop still consumes
every completed task, but their results are discarded. -/
theorem extract_all_or_nothing (path : String) (outcomes : List PageOutcome)
    (order : List Nat) (e : String)
    (h : firstErrIn outcomes order = some e) :
    _get_extracted_content_concurrently path true (Except.ok outcomes) order =
      [(0, "EXTRACTION_ERROR: " ++ e)] := by
  unfold _get_extracted_content_concurrently
  simp only [Bool.not_true, Bool.false_eq_true, if_false]
  rw [foldl_collect_snd outcomes order (List.replicate outcomes.length none), h]

theorem extract_all_or_nothing_witness :
    firstErrIn [Except.ok "a", Except.error "ValueError: boom"] [1, 0] =
      some "ValueError: boom" ∧
    _get_extracted_content_concurrently "book2.pdf" true
        (Except.ok [Except.ok "a", Except.error "ValueError: boom"]) [1, 0] =
      [(0, "EXTRACTION_ERROR: ValueError: boom")] :=
  ⟨rfl, extract_all_or_nothing "book2.pdf"
    [Except.ok "a", Except.error "ValueError: boom"] [1, 0]
    "ValueError: boom" rfl⟩

/-- C9: every page of a successful extraction carries page number equal
to its zero-based slot index plus one, so page numbers start at 1 and
are consecutive; consequently the error test of
`_post_extraction_update` is false on every successful result and true
on every error encoding — the two are unambiguously distinguishable. -/
theorem page_numbering_distinguishes_errors (path : String)
    (texts : List String) (order : List Nat)
    (h : order.Perm (List.range texts.length)) :
    (∀ k, k < (_get_extracted_content_concurrently path true
        (Except.ok (texts.map Except.ok)) order).length →
      (_get_extracted_content_concurrently path true
        (Except.ok (texts.map Except.ok)) order).getD k (0, "") =
        (k + 1, texts.getD k "")) ∧
    isErrorContent (_get_extracted_content_concurrently path true
        (Except.ok (texts.map Except.ok)) order) = false ∧
    (∀ e, isErrorContent [(0, "EXTRACTION_ERROR: " ++ e)] = true) := by
  have he := extract_success_eq path texts order h
  refine ⟨?_, ?_, ?_⟩
  · intro k hk
    rw [he] at hk ⊢
    rw [List.length_map, List.length_range] at hk
    rw [List.getD_eq_getElem?_getD, List.getElem?_map, List.getElem?_range hk]
    rfl
  · rw [he]
    cases texts with
    | nil => rfl
    | cons t ts =>
      rw [List.length_cons, List.range_succ_eq_map]
      simp [isErrorContent]
  · intro e
    have hlit : ("EXTRACTION_ERROR: " : String) =
        "EXTRACTION_ERROR" ++ ": " := by decide
    rw [show ("EXTRACTION_ERROR: " ++ e) =
        "EXTRACTION_ERROR" ++ (": " ++ e) by
      rw [hlit, String.append_assoc]]
    simp [isErrorContent, startswith_append]

theorem page_numbering_distinguishes_errors_witness :
    (([1, 0] : List Nat).Perm
      (List.range (["a", "b"] : List String).length)) ∧
    isErrorContent (_get_extracted_content_concurrently "book3.pdf" true
      (Except.ok ((["a", "b"] : List String).map Except.ok)) [1, 0]) = false ∧
    isErrorContent [(0, "EXTRACTION_ERROR: " ++ "ValueError: boom")] = true :=
  ⟨by decide,
   (page_numbering_distinguishes_errors "book3.pdf" ["a", "b"] [1, 0]
     (by decide)).2.1,
   (page_numbering_distinguishes_errors "book3.pdf" ["a", "b"] [1, 0]
     (by decide)).2.2 "ValueError: boom"⟩

theorem engineTick_events (e : Option (Nat × List Nat)) :
    ((engineTick e).2).any blankNarration = false ∧
    ((engineTick e).2).any isNarrationEvent = false := by
  rcases e with _ | ⟨p, _ | ⟨o, offs⟩⟩ <;>
    simp [engineTick, blankNarration, isNarrationEvent]

theorem loopTick_no_blank (w : String → List Nat) (s : RunState) :
    ((loopTick w s).2).any blankNarration = false := by
  unfold loopTick
  cases hp : s.pos with
  | done => simp
  | atFor =>
    by_cases hs : s.stop_flag
    · simp [hs]
    · simp only [hs, Bool.false_eq_true, if_false]
      cases hr : s.remaining with
      | nil => simp
      | cons pt rest =>
        obtain ⟨p, t⟩ := pt
        by_cases hb : isBlank t
        · simp [hb]
        · simp [hb, blankNarration]
  | busyWait p =>
    by_cases hs : s.stop_flag
    · simp [hs, blankNarration]
    · by_cases hpz : s.is_paused
      · simp [hs, hpz]
      · by_cases he : s.engine.isSome
        · simp [hs, hpz, he]
        · simp [hs, hpz, he, blankNarration]

theorem step_no_blank (w : String → List Nat) (s : RunState) (a : Act) :
    ((step w s a).2).any blankNarration = false := by
  cases a with
  | tick =>
    simp only [step, List.any_append, Bool.or_eq_false_iff]
    exact ⟨(engineTick_events s.engine).1, loopTick_no_blank w _⟩
  | pauseResume =>
    by_cases hr : s.is_reading
    · by_cases hpz : s.is_paused <;> simp [step, hr, hpz, blankNarration]
    · simp [step, hr]
  | stopCmd => simp [step, blankNarration]

theorem runFrom_no_blank (w : String → List Nat) :
    ∀ (acts : List Act) (s : RunState),
      (runFrom w s acts).any blankNarration = false := by
  intro acts
  induction acts with
  | nil => intro s; rfl
  | cons a rest ih =>
    intro s
    simp only [runFrom, List.any_append, Bool.or_eq_false_iff]
    exact ⟨step_no_blank w s a, ih _⟩

theorem step_empty_remaining (w : String → List Nat) (s : RunState) (a : Act)
    (h : s.remaining = []) :
    ((step w s a).1).remaining = [] ∧
    ((step w s a).2).any isNarrationEvent = false := by
  cases a with
  | tick =>
    simp only [step, List.any_append, Bool.or_eq_false_iff]
    refine ⟨?_, (engineTick_events s.engine).2, ?_⟩
    · unfold loopTick
      cases hp : s.pos with
      | done => simpa using h
      | atFor =>
        by_cases hs : s.stop_flag
        · simpa [hs] using h
        · simp only [hs, Bool.false_eq_true, if_false, h]
      | busyWait p =>
        by_cases hs : s.stop_flag
        · simpa [hs] using h
        · by_cases hpz : s.is_paused
          · simpa [hs, hpz] using h
          · by_cases he : (engineTick s.engine).1.isSome
            · simpa [hs, hpz, he] using h
            · simpa [hs, hpz, he] using h
    · unfold loopTick
      cases hp : s.pos with
      | done => simp
      | atFor =>
        by_cases hs : s.stop_flag
        · simp [hs]
        · simp [hs, h]
      | busyWait p =>
        by_cases hs : s.stop_flag
        · simp [hs, isNarrationEvent]
        · by_cases hpz : s.is_paused
          · simp [hs, hpz]
          · by_cases he : (engineTick s.engine).1.isSome
            · simp [hs, hpz, he]
            · simp [hs, hpz, he, isNarrationEvent]
  | pauseResume =>
    by_cases hr : s.is_reading
    · by_cases hpz : s.is_paused <;>
        simp [step, hr, hpz, h, isNarrationEvent]
    · simp [step, hr, h]
  | stopCmd => simp [step, h, isNarrationEvent]

theorem runFrom_empty_no_narration (w : String → List Nat) :
    ∀ (acts : List Act) (s : RunState), s.remaining = [] →
      (runFrom w s acts).any isNarrationEvent = false := by
  intro acts
  induction acts with
  | nil => intro s _; rfl
  | cons a rest ih =>
    intro s h
    simp only [runFrom, List.any_append, Bool.or_eq_false_iff]
    exact ⟨(step_empty_remaining w s a h).2,
      ih _ (step_empty_remaining w s a h).1⟩

/-- C5: the narration loop never emits a page-changed event for, nor
says, blank text — for every engine double, state and schedule — and in
the three-page session whose page 2 is whitespace-only, page-changed
events are emitted for pages 1 and 3 only, never for page 2. -/
theorem blank_pages_skipped :
    (∀ (w : String → List Nat) (s : RunState) (acts : List Act),
      (runFrom w s acts).any blankNarration = false) ∧
    pagesChangedIn (run wordsOfEx contentBlankEx actsBlankEx) = [1, 3] :=
  ⟨fun w s acts => runFrom_no_blank w acts s, by decide⟩

/-- C7 counterexample: in the three-page session paused in the middle of
page 2's utterance and later resumed, the engine — whose queued audio is
not stopped by `pause_resume_reading` — emits a word-boundary event for
page 2 between the pause and the resume, so the claim that no such event
is emitted is false on this schedule.  The full trace is listed. -/
theorem pause_word_events_counterexample :
    run wordsOfEx contentEx actsEx =
      [Event.pageChanged 1 "alpha", Event.say "alpha", Event.word 1 0,
       Event.highlightClear, Event.pageChanged 2 "beta gamma",
       Event.say "beta gamma", Event.word 2 0, Event.paused,
       Event.word 2 5, Event.resumed, Event.highlightClear,
       Event.pageChanged 3 "delta", Event.say "delta", Event.word 3 0,
       Event.highlightClear] ∧
    wordDuringPause 2 (run wordsOfEx contentEx actsEx) false = true := by
  constructor <;> decide

/-- C7 (amended): pausing during page 2 of the three-page session and
resuming leaves page 3 still narrated — page 2 was reached, the
page-changed sequence is 1, 2, 3 with no page skipped, and page 3's
page-changed event comes after the resume — but a word-boundary event
for page 2 does occur between the pause and the resume, because pause
does not stop audio already queued in the engine. -/
theorem pause_never_skips_pages :
    Event.pageChanged 2 "beta gamma" ∈ run wordsOfEx contentEx actsEx ∧
    Event.pageChanged 3 "delta" ∈
      afterEvent Event.resumed (run wordsOfEx contentEx actsEx) ∧
    pagesChangedIn (run wordsOfEx contentEx actsEx) = [1, 2, 3] ∧
    wordDuringPause 2 (run wordsOfEx contentEx actsEx) false = true := by
  refine ⟨?_, ?_, ?_, ?_⟩ <;> decide

/-- C10: extracting a zero-page document succeeds with the empty list —
not an error encoding — and the application then treats it as having no
readable content: `_post_extraction_update` leaves start disabled with
no stored pages, and a narration loop over empty content emits no
page-changed or say event under any engine double and schedule. -/
theorem empty_pdf_extraction :
    _get_extracted_content_concurrently "empty.pdf" true (Except.ok []) [] =
      [] ∧
    isErrorContent [] = false ∧
    _post_extraction_update [] =
      { status := "Extraction failed or PDF is empty."
        start_enabled := false
        current_content := [] } ∧
    (∀ (w : String → List Nat) (acts : List Act),
      (run w [] acts).any isNarrationEvent = false) := by
  refine ⟨rfl, rfl, rfl, ?_⟩
  intro w acts
  exact runFrom_empty_no_narration w acts (initState []) rfl
